import Mathlib

/-!
# Request-logging middleware (`logmiddleware/logmiddleware.go`)

A shallow embedding of the Go package `logmiddleware` and the properties of its
request interceptor `RequestLogger`, its field builder `buildRequestLogFields`
and its header redactor `buildHeaderLogFields`.

Modelling conventions.

* A Go `map[string]T` is an association list with pairwise distinct keys
  (`GoMap T`): `GoMap.set` is the assignment `m[k] = v`, `GoMap.get?` the lookup.
  Two maps are the same map when they agree on every key.
* A `range` loop over a map visits the entries in an unspecified order; the
  order is made explicit: the loop runs over the list of entries in the order
  in which they are visited.
* `strings.ToLower` is a parameter `toLower : String → String` of the header
  redactor, so that every statement holds for Go's Unicode-aware lower-casing;
  `asciiToLower` is its restriction to ASCII input, used on concrete inputs.
-/

namespace LogMiddleware

/-! ## Go maps -/

/-- A Go `map[string]β`: the entries, with pairwise distinct keys. -/
abbrev GoMap (β : Type) := List (String × β)

namespace GoMap

variable {β : Type}

/-- The lookup `m[k]` with the comma-ok result. -/
def get? : GoMap β → String → Option β
  | [], _ => none
  | (k', v) :: rest, k => if k' = k then some v else get? rest k

/-- The assignment `m[k] = v`: replaces the entry of `k`, or adds one. -/
def set : GoMap β → String → β → GoMap β
  | [], k, v => [(k, v)]
  | (k', v') :: rest, k, v => if k' = k then (k, v) :: rest else (k', v') :: set rest k v

/-- The keys of the map. -/
def keys (m : GoMap β) : List String := m.map Prod.fst

end GoMap

/-! ## Constants of the package -/

def httpRequestField : String := "http_request"
def correlationIDField : String := "correlation_id"
def elapsedTimeField : String := "elapsed_time_ms"
def statusCodeField : String := "status_code"
def httpSchemaFieldValue : String := "http"
def httpsSchemaFieldValue : String := "https"
def schemaField : String := "scheme"
def headerField : String := "header"
def requestURLField : String := "request_url"
def requestMethodField : String := "request_method"
def requestPathField : String := "request_path"
def remoteIPField : String := "remote_ip"
def protocolField : String := "protocol"
def correlationIDHeader : String := "X-Correlation-ID"
def authorizationHeader : String := "authorization"
def cookiesHeader : String := "cookie"
def setCookiesHeader : String := "set-cookie"

/-- The status `http.StatusOK`. -/
def StatusOK : Int := 200
/-- The status `http.StatusInternalServerError`. -/
def StatusInternalServerError : Int := 500

/-! ## Header redactor -/

/-- A `http.Header`, of Go type `map[string][]string`. -/
abbrev Header := GoMap (List String)

/-- The function `strings.ToLower` on ASCII input. -/
def asciiToLower (s : String) : String := String.mk (s.data.map Char.toLower)

/-- The function `strings.Join`. -/
def stringsJoin : List String → String → String
  | [], _ => ""
  | [v], _ => v
  | v :: w :: rest, sep => v ++ sep ++ stringsJoin (w :: rest) sep

/-- The `switch` of the loop body of `buildHeaderLogFields`: the value assigned to
`headers[k]`, or `none` where the body runs `continue`. -/
def headerValue : List String → Option String
  | [] => none
  | [v0] => some v0
  | v => some ("[" ++ stringsJoin v "], [" ++ "]")

/-- One iteration of the loop of `buildHeaderLogFields`, on the entry `k, v`. -/
def headerStep (toLower : String → String) (headers : GoMap String)
    (k : String) (v : List String) : GoMap String :=
  let k := toLower k
  match headerValue v with
  | none => headers
  | some x =>
    let headers := headers.set k x
    if k = authorizationHeader ∨ k = cookiesHeader ∨ k = setCookiesHeader then
      headers.set k "***"
    else headers

/-- The function `buildHeaderLogFields`; `requestHeaders` lists the entries of the
header collection in the order in which the `range` loop visits them. -/
def buildHeaderLogFields (toLower : String → String)
    (requestHeaders : List (String × List String)) : GoMap String :=
  requestHeaders.foldl (fun headers e => headerStep toLower headers e.1 e.2) []

/-! ## Requests, response writers and log events -/

/-- The function `textproto.validHeaderFieldByte`: the token characters of RFC 7230. -/
def validHeaderFieldByte (c : Char) : Bool :=
  c.isAlphanum ||
    [33, 35, 36, 37, 38, 39, 42, 43, 45, 46, 94, 95, 96, 124, 126].contains c.toNat

/-- The casing loop of `textproto.canonicalMIMEHeaderKey`: upper case at the start
and after a hyphen, lower case elsewhere. -/
def canonicalCase : Bool → List Char → List Char
  | _, [] => []
  | upper, c :: cs =>
    let c := if upper && c.isLower then c.toUpper
             else if !upper && c.isUpper then c.toLower else c
    c :: canonicalCase (c == '-') cs

/-- The function `textproto.CanonicalMIMEHeaderKey`: a key that is not a token is
returned unchanged. -/
def canonicalMIMEHeaderKey (s : String) : String :=
  if s.data.all validHeaderFieldByte then String.mk (canonicalCase true s.data) else s

namespace Header

/-- The method `http.Header.Get`: the first value of the canonical key, else `""`. -/
def Get (h : Header) (key : String) : String :=
  match GoMap.get? h (canonicalMIMEHeaderKey key) with
  | some (v :: _) => v
  | _ => ""

/-- The method `http.Header.Add`: appends to the values of the canonical key. -/
def Add (h : Header) (key value : String) : Header :=
  let key := canonicalMIMEHeaderKey key
  GoMap.set h key ((GoMap.get? h key).getD [] ++ [value])

/-- The method `http.Header.Values`: all values of the canonical key. -/
def Values (h : Header) (key : String) : List String :=
  (GoMap.get? h (canonicalMIMEHeaderKey key)).getD []

end Header

/-- The persistent fields of the request's logger (`zerolog.Context`). -/
structure Logger where
  context : GoMap String
  deriving DecidableEq, Repr

/-- The fields of `*http.Request` that the package reads, and the values that the
package stores in the request's context. -/
structure Request where
  Method : String
  Host : String
  RequestURI : String
  /-- The field `r.URL.Path`. -/
  Path : String
  RemoteAddr : String
  Proto : String
  /-- Whether `r.TLS != nil`. -/
  TLS : Bool
  /-- The entries of `r.Header`, in the order in which a `range` loop visits them. -/
  Header : Header
  /-- The values of `r.Context()`. -/
  ctxValues : List (String × String)
  /-- The logger of `r.Context()`. -/
  ctxLogger : Option Logger
  deriving DecidableEq, Repr

/-- A value stored in a log field map (`map[string]any`). -/
inductive FieldValue
  | str (s : String)
  | int (n : Int)
  /-- A `time.Duration`. -/
  | duration (n : Int)
  /-- The result of `buildHeaderLogFields`, a `map[string]string`. -/
  | headers (m : GoMap String)
  deriving DecidableEq, Repr

/-- The map returned by `buildRequestLogFields`: every value of the outer map is
itself a `map[string]any`. -/
abbrev LogFields := GoMap (GoMap FieldValue)

/-- An event written to the logging sink. -/
structure LogEvent where
  level : String
  /-- The persistent fields of the logger that emitted the event. -/
  context : GoMap String
  fields : LogFields
  message : String
  deriving DecidableEq, Repr

/-- The state of a `http.ResponseWriter` handed to the interceptor. -/
structure ResponseWriter where
  /-- The map returned by `Header()`. -/
  header : Header
  /-- The status sent to the client, once one was sent. -/
  status : Option Int
  body : String
  deriving DecidableEq, Repr

namespace ResponseWriter

/-- The method `WriteHeader`: the first call sends the status, later calls are
superfluous. -/
def WriteHeader (w : ResponseWriter) (statusCode : Int) : ResponseWriter :=
  match w.status with
  | none => { w with status := some statusCode }
  | some _ => w

/-- The method `Write`: sends status 200 first when no status was sent. -/
def Write (w : ResponseWriter) (b : String) : ResponseWriter :=
  let w := WriteHeader w StatusOK
  { w with body := w.body ++ b }

end ResponseWriter

/-- The struct `logResponseWriter`: the embedded `http.ResponseWriter` and the
field `statusCode`. -/
structure logResponseWriter where
  ResponseWriter : ResponseWriter
  statusCode : Int
  deriving DecidableEq, Repr

/-- The function `newLoggingResponseWriter`. -/
def newLoggingResponseWriter (w : ResponseWriter) : logResponseWriter :=
  { ResponseWriter := w, statusCode := StatusOK }

/-- A non-nil value carried by a panic. A recovered value is never nil while a
panic is in flight: `panic(nil)` raises a `*runtime.PanicNilError`. -/
inductive PanicValue
  | str (s : String)
  | err (msg : String)
  | int (n : Int)
  deriving DecidableEq, Repr

/-- How a call ends. -/
inductive Outcome
  | returns
  | panics (p : PanicValue)
  deriving DecidableEq, Repr

/-! ## The wrapped handler -/

/-- A call that a handler makes on the response writer and the request it is
handed. The handler reaches the writer through the interface `http.ResponseWriter`
only: the field `statusCode` is unexported. -/
inductive Call
  /-- A mutation of the map returned by `w.Header()`. -/
  | header (f : Header → Header)
  /-- The call `w.WriteHeader(statusCode)`. -/
  | writeHeader (statusCode : Int)
  /-- The call `w.Write(b)`. -/
  | write (b : String)
  /-- A mutation of the request `*r`, which the handler shares with the interceptor. -/
  | request (f : Request → Request)

/-- One run of a handler: the calls it makes, in order, and how it ends. -/
structure HandlerRun where
  calls : List Call
  outcome : Outcome

/-- A `http.Handler`: its run, given the response headers and the request at entry. -/
abbrev Handler := Header → Request → HandlerRun

/-- The method set of `*logResponseWriter`. The struct declares no method, so
`Header`, `WriteHeader` and `Write` are all promoted from the embedded
`http.ResponseWriter`; none of them touches `statusCode`. -/
def logResponseWriter.call (lrw : logResponseWriter) (r : Request) :
    Call → logResponseWriter × Request
  | .header f =>
    ({ lrw with ResponseWriter := { lrw.ResponseWriter with header := f lrw.ResponseWriter.header } }, r)
  | .writeHeader statusCode =>
    ({ lrw with ResponseWriter := lrw.ResponseWriter.WriteHeader statusCode }, r)
  | .write b => ({ lrw with ResponseWriter := lrw.ResponseWriter.Write b }, r)
  | .request f => (lrw, f r)

/-- The calls of a handler run, applied in order. -/
def runCalls (lrw : logResponseWriter) (r : Request) : List Call → logResponseWriter × Request
  | [] => (lrw, r)
  | c :: cs => runCalls (lrw.call r c).1 (lrw.call r c).2 cs

/-- The call `next.ServeHTTP(lrw, r)`: the writer and the request after the call,
and how the call ended. -/
def ServeHTTP (next : Handler) (lrw : logResponseWriter) (r : Request) :
    logResponseWriter × Request × Outcome :=
  let run := next lrw.ResponseWriter.header r
  let st := runCalls lrw r run.calls
  (st.1, st.2, run.outcome)

/-! ## The interceptor -/

/-- What the interceptor takes from its environment. -/
structure Env where
  /-- The function `strings.ToLower`. -/
  toLower : String → String
  /-- The string form of the identifier returned by `uuid.NewV4()`. -/
  uuid : String
  /-- The result of `time.Since(startTime)` in the deferred function, in nanoseconds. -/
  elapsed : Int

/-- The duration `time.Millisecond`, in nanoseconds. -/
def Millisecond : Int := 1000000

/-- The function `getCorrelationID`. -/
def getCorrelationID (env : Env) (r : Request) : String :=
  let correlationID := r.Header.Get correlationIDHeader
  if correlationID = "" then env.uuid else correlationID

/-- The function `buildRequestLogFields`. -/
def buildRequestLogFields (toLower : String → String) (r : Request) : LogFields :=
  let scheme := if r.TLS then httpsSchemaFieldValue else httpSchemaFieldValue
  let requestURL := scheme ++ "://" ++ r.Host ++ r.RequestURI
  let requestFields : GoMap FieldValue := []
  let requestFields := requestFields.set requestURLField (.str requestURL)
  let requestFields := requestFields.set requestMethodField (.str r.Method)
  let requestFields := requestFields.set requestPathField (.str r.Path)
  let requestFields := requestFields.set remoteIPField (.str r.RemoteAddr)
  let requestFields := requestFields.set protocolField (.str r.Proto)
  let requestFields := requestFields.set schemaField (.str scheme)
  let requestFields :=
    if r.Header.length > 0 then
      requestFields.set headerField (.headers (buildHeaderLogFields toLower r.Header))
    else requestFields
  GoMap.set [] httpRequestField requestFields

/-- The statement `(logFields[httpRequestField].(map[string]any))[key] = value`.
The type assertion panics when the outer map has no such key. -/
def setRequestField (logFields : LogFields) (key : String) (value : FieldValue) :
    Except PanicValue LogFields :=
  match logFields.get? httpRequestField with
  | none => .error (.err "interface conversion: interface \x7b\x7d is nil, not map[string]interface \x7b\x7d")
  | some requestFields => .ok (logFields.set httpRequestField (requestFields.set key value))

/-- The log fields of the event "Request returned", as the deferred function of
`RequestLogger` builds them. -/
def returnedLogFields (env : Env) (r : Request) (statusCode : Int) :
    Except PanicValue LogFields := do
  let logFields := buildRequestLogFields env.toLower r
  let elapsedTimeMS := Int.tdiv env.elapsed Millisecond
  let logFields ← setRequestField logFields elapsedTimeField (.duration elapsedTimeMS)
  setRequestField logFields statusCodeField (.int statusCode)

/-- What one call of the handler returned by `RequestLogger` did. -/
structure Result where
  /-- The underlying response writer after the call. -/
  w : ResponseWriter
  /-- The field `statusCode` of the `logResponseWriter` after the call. -/
  statusCode : Int
  /-- The request that was handed to the wrapped handler, before the handler ran. -/
  handed : Request
  /-- The response writer that was handed to the wrapped handler, before it ran. -/
  handedWriter : logResponseWriter
  /-- The request after the wrapped handler ran, which the deferred function reads. -/
  final : Request
  /-- The events emitted by the interceptor, in order. -/
  log : List LogEvent
  /-- How the call ended. -/
  outcome : Outcome

/-- The deferred function of `RequestLogger`. `panicking` is the value of the panic
in flight when the function starts, which is what `recover()` returns; the result
is the `statusCode` field, the emitted events and how the function ends. -/
def deferred (env : Env) (lg : Logger) (lrw : logResponseWriter) (r : Request)
    (panicking : Option PanicValue) : Int × List LogEvent × Outcome :=
  match panicking with
  | some panicVal =>
    let lrw := { lrw with statusCode := StatusInternalServerError }
    (lrw.statusCode, [], .panics panicVal)
  | none =>
    match returnedLogFields env r lrw.statusCode with
    | .error p => (lrw.statusCode, [], .panics p)
    | .ok logFields =>
      (lrw.statusCode,
        [{ level := "info", context := lg.context, fields := logFields,
           message := "Request returned" }],
        .returns)

/-- The handler returned by `RequestLogger next`, called on the writer `w` and the
request `r`. -/
def RequestLogger (env : Env) (next : Handler) (w : ResponseWriter) (r : Request) : Result :=
  let correlationID := getCorrelationID env r
  let r := { r with ctxValues := (correlationIDField, correlationID) :: r.ctxValues }
  let lg : Logger := { context := [] }
  let lg := { lg with context := lg.context.set correlationIDField correlationID }
  let w := { w with header := w.header.Add correlationIDHeader correlationID }
  let lrw := newLoggingResponseWriter w
  let r := { r with ctxLogger := some lg }
  let received : LogEvent :=
    { level := "info", context := lg.context,
      fields := buildRequestLogFields env.toLower r, message := "Request received" }
  let served := ServeHTTP next lrw r
  let panicking := match served.2.2 with
    | .returns => none
    | .panics p => some p
  let done := deferred env lg served.1 served.2.1 panicking
  { w := served.1.ResponseWriter, statusCode := done.1, handed := r, handedWriter := lrw,
    final := served.2.1, log := received :: done.2.1, outcome := done.2.2 }

/-! ## Definitions used to state the properties -/

/-- Whether a lower-cased header name is in the redaction set. -/
def redacted (k : String) : Prop :=
  k = authorizationHeader ∨ k = cookiesHeader ∨ k = setCookiesHeader

instance (k : String) : Decidable (redacted k) := by unfold redacted; infer_instance

/-- The display string of a value sequence in the words of the specification: each
value is bracketed, and the bracketed values are joined by a comma and a blank. -/
def bracketJoined (vs : List String) : String :=
  stringsJoin (vs.map (fun v => "[" ++ v ++ "]")) ", "

/-- The value that one visited entry `e` leaves under the key `k`, if it assigns to
`k` at all. -/
def assigned (toLower : String → String) (e : String × List String) (k : String) :
    Option String :=
  if toLower e.1 = k then
    (headerValue e.2).map (fun x => if redacted k then "***" else x)
  else none

/-- The value that the last visited entry assigning to the key `k` leaves there. -/
def lastAssigned (toLower : String → String) :
    List (String × List String) → String → Option String
  | [], _ => none
  | e :: es, k => (lastAssigned toLower es k).orElse (fun _ => assigned toLower e k)

/-- The events of a log with the message "Request returned". -/
def returnedEvents (log : List LogEvent) : List LogEvent :=
  log.filter (fun e => e.message = "Request returned")

/-- The field `status_code` of the `http_request` mapping of an event. -/
def statusCodeOf (e : LogEvent) : Option FieldValue :=
  (GoMap.get? e.fields httpRequestField).bind (fun m => GoMap.get? m statusCodeField)

/-- The keys of the `http_request` mapping that every event carries. -/
def baseKeys : List String :=
  [requestURLField, requestMethodField, requestPathField, remoteIPField, protocolField,
    schemaField]

/-! ## Concrete inputs -/

/-- The header collection of the specification's example. -/
def exampleHeaders : List (String × List String) :=
  [("Authorization", ["Bearer xyz"]), ("X-Foo", ["a", "b"])]

/-- A header collection with sensitive names in several letter cases. -/
def sensitiveHeaders : List (String × List String) :=
  [("COOKIE", ["a=1", "b=2"]), ("Set-Cookie", ["sid=9"]), ("X-Empty", []),
    ("authorization", ["Basic abc"])]

/-- An environment with the ASCII lower-casing. -/
def exampleEnv : Env :=
  { toLower := asciiToLower, uuid := "6ba7b810-9dad-41d1-80b4-00c04fd430c8",
    elapsed := 2500000 }

/-- A request that carries a correlation identifier. -/
def exampleRequest : Request :=
  { Method := "GET", Host := "example.com", RequestURI := "/items?id=1", Path := "/items",
    RemoteAddr := "10.0.0.1:5000", Proto := "HTTP/1.1", TLS := false,
    Header := [("X-Correlation-Id", ["abc"])], ctxValues := [], ctxLogger := none }

/-- A request without headers. -/
def bareRequest : Request :=
  { exampleRequest with Header := [] }

/-- A response writer on which nothing was written. -/
def freshWriter : ResponseWriter :=
  { header := [], status := none, body := "" }

/-- A handler that panics at once. -/
def panickingHandler : Handler :=
  fun _ _ => { calls := [], outcome := .panics (.str "boom") }

/-- A handler that sets status 404, writes a body and returns. -/
def notFoundHandler : Handler :=
  fun _ _ => { calls := [.writeHeader 404, .write "not found"], outcome := .returns }

/-- A handler that writes a body without setting a status, and returns. -/
def plainHandler : Handler :=
  fun _ _ => { calls := [.write "ok"], outcome := .returns }

/-- A handler that overwrites the correlation header of the response. -/
def overwritingHandler : Handler :=
  fun _ _ =>
    { calls := [.header (fun h => GoMap.set h (canonicalMIMEHeaderKey correlationIDHeader)
        ["other"])],
      outcome := .returns }

/-- A handler that deletes every header of the request it is handed, and returns. -/
def headerClearingHandler : Handler :=
  fun _ _ => { calls := [.request (fun r => { r with Header := [] })], outcome := .returns }

/-- A handler that runs `r.Header.Set("X-Seen", "1")` on the request it is handed, and
returns. -/
def headerSettingHandler : Handler :=
  fun _ _ =>
    { calls := [.request (fun r => { r with Header := GoMap.set r.Header "X-Seen" ["1"] })],
      outcome := .returns }

/-! ## Lemmas on Go maps -/

namespace GoMap

variable {β : Type}

theorem get?_set (m : GoMap β) (k k' : String) (v : β) :
    get? (set m k v) k' = if k = k' then some v else get? m k' := by
  induction m with
  | nil => simp [set, get?]
  | cons e rest ih =>
    obtain ⟨k0, v0⟩ := e
    by_cases h0 : k0 = k
    · subst h0
      by_cases h1 : k0 = k' <;> simp [set, get?, h1]
    · by_cases h1 : k0 = k'
      · subst h1
        have h2 : ¬ k = k0 := fun h => h0 h.symm
        simp [set, get?, h0, h2]
      · simp [set, get?, h0, h1, ih]

theorem mem_keys_set (m : GoMap β) (k k' : String) (v : β) :
    k' ∈ keys (set m k v) ↔ k' = k ∨ k' ∈ keys m := by
  induction m with
  | nil => simp [set, keys]
  | cons e rest ih =>
    obtain ⟨k0, v0⟩ := e
    by_cases h0 : k0 = k
    · subst h0
      simp [set, keys]
    · have ih' : k' ∈ List.map Prod.fst (set rest k v) ↔ k' = k ∨ k' ∈ List.map Prod.fst rest := ih
      simp only [set, keys, h0, if_false, List.map_cons, List.mem_cons, ih']
      tauto

theorem nodup_keys_set (m : GoMap β) (k : String) (v : β) (h : (keys m).Nodup) :
    (keys (set m k v)).Nodup := by
  induction m with
  | nil => simp [set, keys]
  | cons e rest ih =>
    obtain ⟨k0, v0⟩ := e
    have hn : k0 ∉ keys rest ∧ (keys rest).Nodup := by simpa [keys] using h
    by_cases h0 : k0 = k
    · subst h0
      simpa [set, keys] using h
    · have hk : k0 ∉ keys (set rest k v) := by
        rw [mem_keys_set]
        rintro (h1 | h1)
        · exact h0 h1
        · exact hn.1 h1
      have := ih hn.2
      simp only [set, h0, if_false, keys, List.map_cons, List.nodup_cons]
      exact ⟨hk, this⟩

theorem mem_keys_iff (m : GoMap β) (k : String) :
    k ∈ keys m ↔ ∃ v, get? m k = some v := by
  induction m with
  | nil => simp [keys, get?]
  | cons e rest ih =>
    obtain ⟨k0, v0⟩ := e
    have ih' : k ∈ List.map Prod.fst rest ↔ ∃ v, get? rest k = some v := ih
    by_cases h0 : k0 = k
    · subst h0
      simp [keys, get?]
    · have h1 : ¬ k = k0 := fun h => h0 h.symm
      simp [keys, get?, h0, h1, ih']

theorem get?_of_mem (m : GoMap β) (h : (keys m).Nodup) (k : String) (v : β)
    (hmem : (k, v) ∈ m) : get? m k = some v := by
  induction m with
  | nil => simp at hmem
  | cons e rest ih =>
    obtain ⟨k0, v0⟩ := e
    have hn : k0 ∉ keys rest ∧ (keys rest).Nodup := by simpa [keys] using h
    rcases List.mem_cons.1 hmem with h1 | h1
    · cases h1
      simp [get?]
    · have hk : k ∈ keys rest := List.mem_map_of_mem Prod.fst h1
      have h0 : ¬ k0 = k := fun h => hn.1 (h ▸ hk)
      simp [get?, h0, ih hn.2 h1]

end GoMap

/-! ## Lemmas on the header redactor -/

theorem get?_headerStep (toLower : String → String) (m : GoMap String) (n : String)
    (vs : List String) (k : String) :
    GoMap.get? (headerStep toLower m n vs) k
      = (assigned toLower (n, vs) k).orElse (fun _ => GoMap.get? m k) := by
  unfold headerStep assigned
  cases hv : headerValue vs with
  | none => by_cases h : toLower n = k <;> simp [h]
  | some x =>
    by_cases h : toLower n = k
    · subst h
      by_cases hr : redacted (toLower n)
      · have hr' : toLower n = authorizationHeader ∨ toLower n = cookiesHeader
            ∨ toLower n = setCookiesHeader := hr
        simp [hr, hr', GoMap.get?_set]
      · have hr' : ¬ (toLower n = authorizationHeader ∨ toLower n = cookiesHeader
            ∨ toLower n = setCookiesHeader) := hr
        simp [hr, hr', GoMap.get?_set]
    · by_cases hr : (toLower n = authorizationHeader ∨ toLower n = cookiesHeader
            ∨ toLower n = setCookiesHeader)
      · simp [h, hr, GoMap.get?_set]
      · simp [h, hr, GoMap.get?_set]

theorem get?_foldl_headerStep (toLower : String → String) (hs : List (String × List String))
    (m : GoMap String) (k : String) :
    GoMap.get? (hs.foldl (fun headers e => headerStep toLower headers e.1 e.2) m) k
      = (lastAssigned toLower hs k).orElse (fun _ => GoMap.get? m k) := by
  induction hs generalizing m with
  | nil => simp [lastAssigned]
  | cons e es ih =>
    rw [List.foldl_cons, ih, get?_headerStep]
    cases h : lastAssigned toLower es k <;> simp [lastAssigned, h]

theorem get?_buildHeaderLogFields (toLower : String → String)
    (hs : List (String × List String)) (k : String) :
    GoMap.get? (buildHeaderLogFields toLower hs) k = lastAssigned toLower hs k := by
  unfold buildHeaderLogFields
  rw [get?_foldl_headerStep]
  cases lastAssigned toLower hs k <;> simp [GoMap.get?]

theorem nodup_keys_headerStep (toLower : String → String) (m : GoMap String) (n : String)
    (vs : List String) (h : (GoMap.keys m).Nodup) :
    (GoMap.keys (headerStep toLower m n vs)).Nodup := by
  unfold headerStep
  cases headerValue vs with
  | none => simpa using h
  | some x =>
    simp only
    split
    · exact GoMap.nodup_keys_set _ _ _ (GoMap.nodup_keys_set _ _ _ h)
    · exact GoMap.nodup_keys_set _ _ _ h

theorem nodup_keys_foldl_headerStep (toLower : String → String)
    (hs : List (String × List String)) (m : GoMap String) (h : (GoMap.keys m).Nodup) :
    (GoMap.keys (hs.foldl (fun headers e => headerStep toLower headers e.1 e.2) m)).Nodup := by
  induction hs generalizing m with
  | nil => simpa using h
  | cons e es ih =>
    rw [List.foldl_cons]
    exact ih _ (nodup_keys_headerStep toLower m e.1 e.2 h)

theorem nodup_keys_buildHeaderLogFields (toLower : String → String)
    (hs : List (String × List String)) :
    (GoMap.keys (buildHeaderLogFields toLower hs)).Nodup :=
  nodup_keys_foldl_headerStep toLower hs [] (by simp [GoMap.keys])

theorem headerValue_eq_none (vs : List String) : headerValue vs = none ↔ vs = [] := by
  match vs with
  | [] => simp [headerValue]
  | [_] => simp [headerValue]
  | _ :: _ :: _ => simp [headerValue]

/-- The last assignment to `k` is made by some visited entry that lower-cases to `k`. -/
theorem lastAssigned_eq_some (toLower : String → String) (hs : List (String × List String))
    (k x : String) (h : lastAssigned toLower hs k = some x) :
    ∃ e ∈ hs, assigned toLower e k = some x := by
  induction hs with
  | nil => simp [lastAssigned] at h
  | cons e es ih =>
    cases hl : lastAssigned toLower es k with
    | some y =>
      simp [lastAssigned, hl] at h
      subst h
      obtain ⟨e', he', ha⟩ := ih hl
      exact ⟨e', List.mem_cons_of_mem _ he', ha⟩
    | none =>
      simp [lastAssigned, hl] at h
      exact ⟨e, List.mem_cons_self _ _, h⟩

theorem lastAssigned_isSome (toLower : String → String) (hs : List (String × List String))
    (k : String) (e : String × List String) (he : e ∈ hs) (x : String)
    (ha : assigned toLower e k = some x) :
    ∃ y, lastAssigned toLower hs k = some y := by
  induction hs with
  | nil => simp at he
  | cons e0 es ih =>
    cases hl : lastAssigned toLower es k with
    | some y => exact ⟨y, by simp [lastAssigned, hl]⟩
    | none =>
      rcases List.mem_cons.1 he with h1 | h1
      · subst h1
        exact ⟨x, by simp [lastAssigned, hl, ha]⟩
      · obtain ⟨y, hy⟩ := ih h1
        rw [hl] at hy
        cases hy

/-- When every visited entry that lower-cases to `k` is the entry `e`, the value
left under `k` is the one that `e` assigns. -/
theorem lastAssigned_of_unique (toLower : String → String) (hs : List (String × List String))
    (k : String) (e : String × List String) (he : e ∈ hs)
    (huniq : ∀ e0 ∈ hs, toLower e0.1 = k → e0 = e) :
    lastAssigned toLower hs k = assigned toLower e k := by
  cases hl : lastAssigned toLower hs k with
  | some x =>
    obtain ⟨e0, he0, ha⟩ := lastAssigned_eq_some toLower hs k x hl
    have hk : toLower e0.1 = k := by
      by_contra hne
      simp [assigned, hne] at ha
    rw [← huniq e0 he0 hk, ha]
  | none =>
    cases ha : assigned toLower e k with
    | none => rfl
    | some x =>
      obtain ⟨y, hy⟩ := lastAssigned_isSome toLower hs k e he x ha
      rw [hl] at hy
      cases hy

theorem bracket_stringsJoin (v : String) (vs : List String) :
    "[" ++ stringsJoin (v :: vs) "], [" ++ "]" = bracketJoined (v :: vs) := by
  induction vs generalizing v with
  | nil => simp [stringsJoin, bracketJoined]
  | cons w rest ih =>
    have ih' := ih w
    unfold bracketJoined at ih' ⊢
    simp only [stringsJoin, List.map_cons] at ih' ⊢
    rw [← ih']
    have hsep : "], [" = "]" ++ ", " ++ "[" := by decide
    rw [hsep]
    simp only [String.append_assoc]

theorem GoMap.mem_of_get? {β : Type} (m : GoMap β) (k : String) (v : β)
    (h : GoMap.get? m k = some v) : (k, v) ∈ m := by
  induction m with
  | nil => simp [GoMap.get?] at h
  | cons e rest ih =>
    obtain ⟨k0, v0⟩ := e
    by_cases h0 : k0 = k
    · subst h0
      simp [GoMap.get?] at h
      subst h
      exact List.mem_cons_self _ _
    · simp [GoMap.get?, h0] at h
      exact List.mem_cons_of_mem _ (ih h)

theorem assigned_key (toLower : String → String) (e : String × List String) (k x : String)
    (h : assigned toLower e k = some x) : toLower e.1 = k := by
  by_contra hne
  simp [assigned, hne] at h

theorem charToLower_idem (c : Char) : c.toLower.toLower = c.toLower := by
  by_cases h : c.toNat ≥ 65 ∧ c.toNat ≤ 90
  · have h1 : c.toLower = Char.ofNat (c.toNat + 32) := by
      simp only [Char.toLower, h, and_self, if_true]
    rw [h1]
    obtain ⟨ha, hb⟩ := h
    generalize c.toNat = n at ha hb
    interval_cases n <;> rfl
  · have h1 : c.toLower = c := by
      simp only [Char.toLower, h, if_false]
    rw [h1, h1]

theorem asciiToLower_idem (s : String) : asciiToLower (asciiToLower s) = asciiToLower s := by
  simp [asciiToLower, List.map_map, Function.comp_def, charToLower_idem]

/-! ## Properties of the header redactor -/

/-- C5: every entry of the output of `buildHeaderLogFields` whose key is
`authorization`, `cookie` or `set-cookie` has the value `***`, for every header
collection, every visiting order and every lower-casing function. -/
theorem buildHeaderLogFields_masks (toLower : String → String)
    (hs : List (String × List String)) (e : String × String)
    (he : e ∈ buildHeaderLogFields toLower hs)
    (hk : e.1 = authorizationHeader ∨ e.1 = cookiesHeader ∨ e.1 = setCookiesHeader) :
    e.2 = "***" := by
  obtain ⟨k, v⟩ := e
  have hget := GoMap.get?_of_mem _ (nodup_keys_buildHeaderLogFields toLower hs) k v he
  rw [get?_buildHeaderLogFields] at hget
  obtain ⟨e0, _, ha⟩ := lastAssigned_eq_some toLower hs k v hget
  have hk0 := assigned_key toLower e0 k v ha
  have hr : redacted k := hk
  simp only [assigned, hk0, if_true, hr] at ha
  cases hv : headerValue e0.2 with
  | none => simp [hv] at ha
  | some x =>
    simp [hv] at ha
    exact ha.symm

/-- The masking of sensitive names at a collection with a multi-valued upper-case
`COOKIE`, a `Set-Cookie` and a lower-case `authorization`. -/
theorem buildHeaderLogFields_masks_witness :
    (("cookie", "***") ∈ buildHeaderLogFields asciiToLower sensitiveHeaders)
    ∧ GoMap.get? (buildHeaderLogFields asciiToLower sensitiveHeaders) "set-cookie" = some "***"
    ∧ GoMap.get? (buildHeaderLogFields asciiToLower sensitiveHeaders) "authorization"
        = some "***"
    ∧ ("cookie", "***").2 = "***" :=
  ⟨by decide, by decide, by decide,
    buildHeaderLogFields_masks asciiToLower sensitiveHeaders ("cookie", "***") (by decide)
      (by decide)⟩

/-- C6: a name whose lower-cased form is not in the redaction set and is shared by
no other name maps, under its lower-cased form, to its value when it has exactly
one, and to the bracketed values joined by a comma and a blank when it has two or
more. -/
theorem buildHeaderLogFields_plain (toLower : String → String)
    (hs : List (String × List String)) (n : String) (vs : List String)
    (hmem : (n, vs) ∈ hs)
    (hmap : ∀ e ∈ hs, e.1 = n → e.2 = vs)
    (hother : ∀ e ∈ hs, e.1 ≠ n → toLower e.1 ≠ toLower n)
    (hred : ¬ (toLower n = authorizationHeader ∨ toLower n = cookiesHeader
      ∨ toLower n = setCookiesHeader)) :
    (∀ v, vs = [v] → GoMap.get? (buildHeaderLogFields toLower hs) (toLower n) = some v)
    ∧ (2 ≤ vs.length →
        GoMap.get? (buildHeaderLogFields toLower hs) (toLower n) = some (bracketJoined vs)) := by
  have huniq : ∀ e0 ∈ hs, toLower e0.1 = toLower n → e0 = (n, vs) := by
    intro e0 he0 hl
    have hn : e0.1 = n := by
      by_contra hne
      exact hother e0 he0 hne hl
    exact Prod.ext hn (hmap e0 he0 hn)
  have hr : ¬ redacted (toLower n) := hred
  have hget : GoMap.get? (buildHeaderLogFields toLower hs) (toLower n)
      = headerValue vs := by
    rw [get?_buildHeaderLogFields, lastAssigned_of_unique toLower hs _ _ hmem huniq]
    simp only [assigned, if_true, hr, if_false]
    cases headerValue vs <;> simp
  constructor
  · intro v hv
    rw [hget, hv]
    simp [headerValue]
  · intro hlen
    rw [hget]
    match vs, hlen with
    | v :: w :: rest, _ =>
      simp only [headerValue]
      rw [bracket_stringsJoin]

/-- The example of the specification: the whole output in both visiting orders, and
the entry of the name `X-Foo`. -/
theorem buildHeaderLogFields_plain_witness :
    buildHeaderLogFields asciiToLower exampleHeaders
        = [("authorization", "***"), ("x-foo", "[a], [b]")]
    ∧ (∀ k, GoMap.get? (buildHeaderLogFields asciiToLower exampleHeaders.reverse) k
        = GoMap.get? [("authorization", "***"), ("x-foo", "[a], [b]")] k)
    ∧ bracketJoined ["a", "b"] = "[a], [b]"
    ∧ GoMap.get? (buildHeaderLogFields asciiToLower exampleHeaders) (asciiToLower "X-Foo")
        = some (bracketJoined ["a", "b"]) :=
  ⟨by decide,
    by
      intro k
      have h : buildHeaderLogFields asciiToLower exampleHeaders.reverse
          = [("x-foo", "[a], [b]"), ("authorization", "***")] := by decide
      rw [h]
      by_cases h1 : "x-foo" = k
      · subst h1; decide
      · by_cases h2 : "authorization" = k
        · subst h2; decide
        · simp [GoMap.get?, h1, h2],
    by decide,
    (buildHeaderLogFields_plain asciiToLower exampleHeaders "X-Foo" ["a", "b"] (by decide)
      (by decide) (by decide) (by decide)).2 (by decide)⟩

/-- C7: the keys of the output of `buildHeaderLogFields` are exactly the lower-cased
forms of the names that have at least one value; no key occurs twice; every key is
fixed by the lower-casing when lower-casing twice is lower-casing once; and no
header yields the empty map. -/
theorem buildHeaderLogFields_keys (toLower : String → String)
    (hs : List (String × List String)) :
    (∀ k, k ∈ GoMap.keys (buildHeaderLogFields toLower hs)
        ↔ ∃ e ∈ hs, e.2 ≠ [] ∧ toLower e.1 = k)
    ∧ (GoMap.keys (buildHeaderLogFields toLower hs)).Nodup
    ∧ ((∀ s, toLower (toLower s) = toLower s) →
        ∀ k ∈ GoMap.keys (buildHeaderLogFields toLower hs), toLower k = k)
    ∧ buildHeaderLogFields toLower [] = [] := by
  have hkeys : ∀ k, k ∈ GoMap.keys (buildHeaderLogFields toLower hs)
      ↔ ∃ e ∈ hs, e.2 ≠ [] ∧ toLower e.1 = k := by
    intro k
    rw [GoMap.mem_keys_iff]
    constructor
    · rintro ⟨v, hv⟩
      rw [get?_buildHeaderLogFields] at hv
      obtain ⟨e, he, ha⟩ := lastAssigned_eq_some toLower hs k v hv
      have hk := assigned_key toLower e k v ha
      refine ⟨e, he, ?_, hk⟩
      intro hnil
      simp [assigned, hk, hnil, headerValue] at ha
    · rintro ⟨e, he, hne, hk⟩
      have hv : headerValue e.2 ≠ none := fun h => hne ((headerValue_eq_none e.2).1 h)
      obtain ⟨x, hx⟩ := Option.ne_none_iff_exists'.1 hv
      have ha : assigned toLower e k = some (if redacted k then "***" else x) := by
        simp [assigned, hk, hx]
      obtain ⟨y, hy⟩ := lastAssigned_isSome toLower hs k e he _ ha
      exact ⟨y, by rw [get?_buildHeaderLogFields, hy]⟩
  refine ⟨hkeys, nodup_keys_buildHeaderLogFields toLower hs, ?_, rfl⟩
  intro hidem k hk
  obtain ⟨e, _, _, he⟩ := (hkeys k).1 hk
  rw [← he, hidem]

/-- The keys of the output at a collection with a name without values and two names
that differ in letter case only. -/
theorem buildHeaderLogFields_keys_witness :
    GoMap.keys (buildHeaderLogFields asciiToLower
        [("X-Foo", ["a"]), ("X-Empty", []), ("x-foo", ["b", "c"])]) = ["x-foo"]
    ∧ ∀ k ∈ GoMap.keys (buildHeaderLogFields asciiToLower
        [("X-Foo", ["a"]), ("X-Empty", []), ("x-foo", ["b", "c"])]), asciiToLower k = k :=
  ⟨by decide,
    (buildHeaderLogFields_keys asciiToLower
      [("X-Foo", ["a"]), ("X-Empty", []), ("x-foo", ["b", "c"])]).2.2.1 asciiToLower_idem⟩

/-- C10: when the names of a header collection are pairwise distinct and no two of
them share a lower-cased form, visiting the entries in any two orders gives the same
map: the two outputs agree on every key and hold the same entries. -/
theorem buildHeaderLogFields_order (toLower : String → String)
    (hs₁ hs₂ : List (String × List String)) (hperm : hs₁.Perm hs₂)
    (hmap : (hs₁.map Prod.fst).Nodup)
    (hinj : ∀ e₁ ∈ hs₁, ∀ e₂ ∈ hs₁, toLower e₁.1 = toLower e₂.1 → e₁.1 = e₂.1) :
    (∀ k, GoMap.get? (buildHeaderLogFields toLower hs₁) k
        = GoMap.get? (buildHeaderLogFields toLower hs₂) k)
    ∧ (buildHeaderLogFields toLower hs₁).Perm (buildHeaderLogFields toLower hs₂) := by
  have hget : ∀ k, GoMap.get? (buildHeaderLogFields toLower hs₁) k
      = GoMap.get? (buildHeaderLogFields toLower hs₂) k := by
    intro k
    rw [get?_buildHeaderLogFields, get?_buildHeaderLogFields]
    by_cases hex : ∃ e ∈ hs₁, toLower e.1 = k
    · obtain ⟨e, he, hk⟩ := hex
      have huniq : ∀ e0 ∈ hs₁, toLower e0.1 = k → e0 = e := by
        intro e0 he0 hk0
        exact List.inj_on_of_nodup_map hmap he0 he (hinj e0 he0 e he (hk0.trans hk.symm))
      rw [lastAssigned_of_unique toLower hs₁ k e he huniq,
        lastAssigned_of_unique toLower hs₂ k e (hperm.mem_iff.1 he)
          (fun e0 he0 hk0 => huniq e0 (hperm.mem_iff.2 he0) hk0)]
    · have hnone : ∀ hs : List (String × List String), (∀ e ∈ hs, e ∈ hs₁) →
          lastAssigned toLower hs k = none := by
        intro hs hsub
        cases hl : lastAssigned toLower hs k with
        | none => rfl
        | some x =>
          obtain ⟨e, he, ha⟩ := lastAssigned_eq_some toLower hs k x hl
          exact absurd ⟨e, hsub e he, assigned_key toLower e k x ha⟩ hex
      rw [hnone hs₁ (fun _ h => h), hnone hs₂ (fun _ h => hperm.mem_iff.2 h)]
  refine ⟨hget, ?_⟩
  have hn₁ := nodup_keys_buildHeaderLogFields toLower hs₁
  have hn₂ := nodup_keys_buildHeaderLogFields toLower hs₂
  refine (List.perm_ext_iff_of_nodup (List.Nodup.of_map _ hn₁) (List.Nodup.of_map _ hn₂)).2 ?_
  rintro ⟨k, v⟩
  constructor
  · intro h
    exact GoMap.mem_of_get? _ k v ((hget k) ▸ GoMap.get?_of_mem _ hn₁ k v h)
  · intro h
    exact GoMap.mem_of_get? _ k v ((hget k).symm ▸ GoMap.get?_of_mem _ hn₂ k v h)

/-- The two visiting orders of the specification's example give the same map, and
the order matters once two names differ in letter case only. -/
theorem buildHeaderLogFields_order_witness :
    ((∀ k, GoMap.get? (buildHeaderLogFields asciiToLower exampleHeaders) k
        = GoMap.get? (buildHeaderLogFields asciiToLower exampleHeaders.reverse) k)
      ∧ (buildHeaderLogFields asciiToLower exampleHeaders).Perm
          (buildHeaderLogFields asciiToLower exampleHeaders.reverse))
    ∧ buildHeaderLogFields asciiToLower [("X-Foo", ["a"]), ("x-foo", ["b"])]
        = [("x-foo", "b")]
    ∧ buildHeaderLogFields asciiToLower [("x-foo", ["b"]), ("X-Foo", ["a"])]
        = [("x-foo", "a")] :=
  ⟨buildHeaderLogFields_order asciiToLower exampleHeaders exampleHeaders.reverse
      (List.reverse_perm exampleHeaders).symm (by decide) (by decide),
    by decide, by decide⟩

/-! ## Lemmas on the interceptor -/

theorem canonical_correlationIDHeader :
    canonicalMIMEHeaderKey correlationIDHeader = "X-Correlation-Id" := by decide

theorem statusCode_runCalls (lrw : logResponseWriter) (r : Request) (cs : List Call) :
    (runCalls lrw r cs).1.statusCode = lrw.statusCode := by
  induction cs generalizing lrw r with
  | nil => rfl
  | cons c cs ih =>
    rw [runCalls, ih]
    cases c <;> rfl

theorem Values_Add (h : Header) (key value : String) :
    Header.Values (Header.Add h key value) key = Header.Values h key ++ [value] := by
  simp [Header.Values, Header.Add, GoMap.get?_set]

theorem Get_Add_of_Values_nil (h : Header) (key value : String)
    (hnil : Header.Values h key = []) : Header.Get (Header.Add h key value) key = value := by
  have hv := Values_Add h key value
  rw [hnil] at hv
  unfold Header.Values at hv
  unfold Header.Get
  cases hg : GoMap.get? (Header.Add h key value) (canonicalMIMEHeaderKey key) with
  | none => simp [hg] at hv
  | some l =>
    simp [hg] at hv
    subst hv
    rfl

theorem Values_runCalls (key : String) (lrw : logResponseWriter) (r : Request)
    (cs : List Call)
    (hkeep : ∀ f, Call.header f ∈ cs → ∀ h, Header.Values (f h) key = Header.Values h key) :
    Header.Values (runCalls lrw r cs).1.ResponseWriter.header key
      = Header.Values lrw.ResponseWriter.header key := by
  induction cs generalizing lrw r with
  | nil => rfl
  | cons c cs ih =>
    rw [runCalls, ih _ _ (fun f hf => hkeep f (List.mem_cons_of_mem _ hf))]
    cases c with
    | header f => exact hkeep f (List.mem_cons_self _ _) _
    | writeHeader s =>
      simp only [logResponseWriter.call, ResponseWriter.WriteHeader]
      cases lrw.ResponseWriter.status <;> rfl
    | write b =>
      simp only [logResponseWriter.call, ResponseWriter.Write, ResponseWriter.WriteHeader]
      cases lrw.ResponseWriter.status <;> rfl
    | request f => rfl

/-- The inner map of `buildRequestLogFields` and its keys. -/
theorem buildRequestLogFields_spec (toLower : String → String) (r : Request) :
    ∃ m, buildRequestLogFields toLower r = [(httpRequestField, m)]
      ∧ (GoMap.keys m).Nodup
      ∧ ∀ k, k ∈ GoMap.keys m ↔ (k ∈ baseKeys ∨ (k = headerField ∧ 0 < r.Header.length)) := by
  unfold buildRequestLogFields
  by_cases hlen : r.Header.length > 0
  · refine ⟨_, by simp only [hlen, if_true]; rfl, ?_, ?_⟩
    · simp [GoMap.set, GoMap.keys, requestURLField, requestMethodField, requestPathField,
        remoteIPField, protocolField, schemaField, headerField]
    · intro k
      simp [GoMap.set, GoMap.keys, requestURLField, requestMethodField, requestPathField,
        remoteIPField, protocolField, schemaField, headerField, baseKeys, hlen]
      have : 0 < r.Header.length := hlen
      tauto
  · refine ⟨_, by simp only [hlen, if_false]; rfl, ?_, ?_⟩
    · simp [GoMap.set, GoMap.keys, requestURLField, requestMethodField, requestPathField,
        remoteIPField, protocolField, schemaField]
    · intro k
      simp [GoMap.set, GoMap.keys, requestURLField, requestMethodField, requestPathField,
        remoteIPField, protocolField, schemaField, headerField, baseKeys]
      have : ¬ 0 < r.Header.length := hlen
      tauto

/-- The deferred function's field map is built without a failed type assertion, and
its inner map has the keys of `buildRequestLogFields` and the two completion keys. -/
theorem returnedLogFields_spec (env : Env) (r : Request) (statusCode : Int) :
    ∃ m, returnedLogFields env r statusCode = .ok [(httpRequestField, m)]
      ∧ GoMap.get? m statusCodeField = some (.int statusCode)
      ∧ (GoMap.keys m).Nodup
      ∧ ∀ k, k ∈ GoMap.keys m ↔ (k ∈ baseKeys ∨ (k = headerField ∧ 0 < r.Header.length)
          ∨ k = elapsedTimeField ∨ k = statusCodeField) := by
  obtain ⟨m0, hm0, hnd, hk⟩ := buildRequestLogFields_spec env.toLower r
  refine ⟨(GoMap.set m0 elapsedTimeField (.duration (Int.tdiv env.elapsed Millisecond))).set
    statusCodeField (.int statusCode), ?_, ?_, ?_, ?_⟩
  · unfold returnedLogFields
    rw [hm0]
    rfl
  · simp [GoMap.get?_set]
  · exact GoMap.nodup_keys_set _ _ _ (GoMap.nodup_keys_set _ _ _ hnd)
  · intro k
    rw [GoMap.mem_keys_set, GoMap.mem_keys_set, hk]
    tauto

/-- When the wrapped handler returns, the deferred function emits one event after
"Request received", built from the request as the handler left it and from the
initial value 200 of the field `statusCode`. -/
theorem RequestLogger_of_returns (env : Env) (next : Handler) (w : ResponseWriter)
    (r : Request)
    (hret : (next (RequestLogger env next w r).handedWriter.ResponseWriter.header
      (RequestLogger env next w r).handed).outcome = .returns) :
    ∃ e₀ lf, (RequestLogger env next w r).log
        = [e₀, { level := "info", context := e₀.context, fields := lf,
                 message := "Request returned" }]
      ∧ e₀.message = "Request received"
      ∧ e₀.fields = buildRequestLogFields env.toLower r
      ∧ returnedLogFields env (RequestLogger env next w r).final StatusOK = .ok lf
      ∧ (RequestLogger env next w r).outcome = .returns := by
  obtain ⟨m, hm, _⟩ := returnedLogFields_spec env (RequestLogger env next w r).final StatusOK
  refine ⟨{ level := "info",
             context := GoMap.set [] correlationIDField (getCorrelationID env r),
             fields := buildRequestLogFields env.toLower r, message := "Request received" },
    [(httpRequestField, m)], ?_, ?_, ?_, hm, ?_⟩
  · simp only [RequestLogger, ServeHTTP] at hret hm ⊢
    rw [hret]
    simp only [deferred, statusCode_runCalls, newLoggingResponseWriter] at hm ⊢
    rw [hm]
    rfl
  · rfl
  · rfl
  · simp only [RequestLogger, ServeHTTP] at hret hm ⊢
    rw [hret]
    simp only [deferred, statusCode_runCalls, newLoggingResponseWriter] at hm ⊢
    rw [hm]

/-- When the wrapped handler panics, the deferred function emits nothing. -/
theorem RequestLogger_of_panics (env : Env) (next : Handler) (w : ResponseWriter)
    (r : Request) (p : PanicValue)
    (hpanic : (next (RequestLogger env next w r).handedWriter.ResponseWriter.header
      (RequestLogger env next w r).handed).outcome = .panics p) :
    ∃ e₀, (RequestLogger env next w r).log = [e₀]
      ∧ e₀.message = "Request received"
      ∧ e₀.fields = buildRequestLogFields env.toLower r := by
  refine ⟨{ level := "info",
             context := GoMap.set [] correlationIDField (getCorrelationID env r),
             fields := buildRequestLogFields env.toLower r, message := "Request received" },
    ?_, rfl, rfl⟩
  simp only [RequestLogger, ServeHTTP] at hpanic ⊢
  rw [hpanic]
  rfl

theorem request_runCalls (lrw : logResponseWriter) (r : Request) (cs : List Call)
    (hnone : ∀ f, Call.request f ∉ cs) : (runCalls lrw r cs).2 = r := by
  induction cs generalizing lrw r with
  | nil => rfl
  | cons c cs ih =>
    rw [runCalls, ih _ _ (fun f hf => hnone f (List.mem_cons_of_mem _ hf))]
    cases c with
    | request f => exact absurd (List.mem_cons_self _ _) (hnone f)
    | header f => rfl
    | writeHeader s => rfl
    | write b => rfl

/-! ## Properties of the interceptor -/

/-- C1: at a handler that panics, `RequestLogger` emits the event "Request received"
only: the deferred function stores status 500 and panics again before it reaches the
statement that emits "Request returned". -/
theorem RequestLogger_panic_emits_no_returned :
    returnedEvents (RequestLogger exampleEnv panickingHandler freshWriter exampleRequest).log
        = []
    ∧ (RequestLogger exampleEnv panickingHandler freshWriter exampleRequest).log.map
        (fun e => e.message) = ["Request received"]
    ∧ (RequestLogger exampleEnv panickingHandler freshWriter exampleRequest).statusCode = 500
    ∧ (RequestLogger exampleEnv panickingHandler freshWriter exampleRequest).outcome
        = .panics (.str "boom") := by
  refine ⟨by decide, by decide, by decide, by decide⟩

/-- C2: when the wrapped handler panics with the value `p`, the handler returned by
`RequestLogger` ends by panicking with the same value `p`. -/
theorem RequestLogger_repanics (env : Env) (next : Handler) (w : ResponseWriter)
    (r : Request) (p : PanicValue)
    (hpanic : (next (RequestLogger env next w r).handedWriter.ResponseWriter.header
      (RequestLogger env next w r).handed).outcome = .panics p) :
    (RequestLogger env next w r).outcome = .panics p := by
  simp only [RequestLogger, ServeHTTP] at hpanic ⊢
  rw [hpanic]
  rfl

/-- A handler that panics with the string `boom` makes the interceptor panic with
the string `boom`. -/
theorem RequestLogger_repanics_witness :
    (RequestLogger exampleEnv panickingHandler freshWriter exampleRequest).outcome
      = .panics (.str "boom") :=
  RequestLogger_repanics exampleEnv panickingHandler freshWriter exampleRequest (.str "boom")
    rfl

/-- C3: at a handler that sets status 404, writes a body and returns, the event
"Request returned" carries the status code 200, although the client was sent 404:
`logResponseWriter` declares no `WriteHeader` method, so the call never reaches the
field `statusCode`. -/
theorem RequestLogger_logs_200_for_404 :
    (returnedEvents
        (RequestLogger exampleEnv notFoundHandler freshWriter exampleRequest).log).map
        statusCodeOf = [some (.int 200)]
    ∧ (RequestLogger exampleEnv notFoundHandler freshWriter exampleRequest).w.status
        = some 404
    ∧ (RequestLogger exampleEnv notFoundHandler freshWriter exampleRequest).w.body
        = "not found"
    ∧ (RequestLogger exampleEnv notFoundHandler freshWriter exampleRequest).outcome
        = .returns := by
  refine ⟨by decide, by decide, by decide, by decide⟩

/-- C4: when the wrapped handler returns without ever calling `WriteHeader`, the
interceptor emits exactly one event "Request returned", and its status code is 200. -/
theorem RequestLogger_default_status (env : Env) (next : Handler) (w : ResponseWriter)
    (r : Request)
    (hret : (next (RequestLogger env next w r).handedWriter.ResponseWriter.header
      (RequestLogger env next w r).handed).outcome = .returns)
    (_hnever : ∀ s, Call.writeHeader s ∉
      (next (RequestLogger env next w r).handedWriter.ResponseWriter.header
        (RequestLogger env next w r).handed).calls) :
    ∃ e, returnedEvents (RequestLogger env next w r).log = [e]
      ∧ statusCodeOf e = some (.int 200)
      ∧ (RequestLogger env next w r).outcome = .returns := by
  obtain ⟨e₀, lf, hlog, hmsg, _, hlf, hout⟩ := RequestLogger_of_returns env next w r hret
  obtain ⟨m, hm, hs, _, _⟩ := returnedLogFields_spec env (RequestLogger env next w r).final
    StatusOK
  rw [hm] at hlf
  cases hlf
  refine ⟨{ level := "info", context := e₀.context, fields := [(httpRequestField, m)],
             message := "Request returned" }, ?_, ?_, hout⟩
  · rw [hlog]
    simp [returnedEvents, hmsg]
  · simp [statusCodeOf, GoMap.get?, hs, StatusOK]

/-- A handler that writes a body without setting a status: the one event "Request
returned" carries the status code 200. -/
theorem RequestLogger_default_status_witness :
    ∃ e, returnedEvents (RequestLogger exampleEnv plainHandler freshWriter bareRequest).log
        = [e]
      ∧ statusCodeOf e = some (.int 200)
      ∧ (RequestLogger exampleEnv plainHandler freshWriter bareRequest).outcome = .returns :=
  RequestLogger_default_status exampleEnv plainHandler freshWriter bareRequest rfl
    (by intro s; simp [plainHandler])

/-- C8, as stated, fails: the request carries the identifier `abc`, the wrapped handler
overwrites the response header, and after `RequestLogger` the response carries
`other` and not `abc`. -/
theorem RequestLogger_correlation_overwritten :
    GoMap.get? exampleRequest.Header (canonicalMIMEHeaderKey correlationIDHeader)
        = some ["abc"]
    ∧ getCorrelationID exampleEnv exampleRequest = "abc"
    ∧ Header.Get (RequestLogger exampleEnv overwritingHandler freshWriter exampleRequest).w.header
        correlationIDHeader = "other"
    ∧ Header.Values
        (RequestLogger exampleEnv overwritingHandler freshWriter exampleRequest).w.header
        correlationIDHeader = ["other"]
    ∧ (RequestLogger exampleEnv overwritingHandler freshWriter exampleRequest).outcome
        = .returns := by
  refine ⟨by decide, by decide, by decide, by decide, by decide⟩

/-- C8, amended: when the request carries the header `X-Correlation-ID` with a
non-empty first value `v`, `getCorrelationID` returns `v`; the response writer handed
to the wrapped handler holds `v` as the last value of that header, and as its first
value when the response carried none before; and after `RequestLogger` the response
still holds it so whenever the handler's calls leave the values of that header
alone. -/
theorem RequestLogger_correlation (env : Env) (next : Handler) (w : ResponseWriter)
    (r : Request) (v : String) (rest : List String)
    (hcarry : GoMap.get? r.Header (canonicalMIMEHeaderKey correlationIDHeader)
      = some (v :: rest))
    (hv : v ≠ "") :
    getCorrelationID env r = v
    ∧ Header.Values (RequestLogger env next w r).handedWriter.ResponseWriter.header
        correlationIDHeader = Header.Values w.header correlationIDHeader ++ [v]
    ∧ (Header.Values w.header correlationIDHeader = [] →
        Header.Get (RequestLogger env next w r).handedWriter.ResponseWriter.header
          correlationIDHeader = v)
    ∧ ((∀ f, Call.header f ∈
          (next (RequestLogger env next w r).handedWriter.ResponseWriter.header
            (RequestLogger env next w r).handed).calls →
          ∀ h, Header.Values (f h) correlationIDHeader = Header.Values h correlationIDHeader) →
        Header.Values (RequestLogger env next w r).w.header correlationIDHeader
          = Header.Values w.header correlationIDHeader ++ [v]) := by
  have hid : getCorrelationID env r = v := by
    simp [getCorrelationID, Header.Get, hcarry, hv]
  refine ⟨hid, ?_, ?_, ?_⟩
  · simp only [RequestLogger, newLoggingResponseWriter, hid]
    exact Values_Add _ _ _
  · intro hnil
    simp only [RequestLogger, newLoggingResponseWriter, hid]
    exact Get_Add_of_Values_nil _ _ _ hnil
  · intro hkeep
    simp only [RequestLogger, ServeHTTP, newLoggingResponseWriter, hid] at hkeep ⊢
    rw [Values_runCalls correlationIDHeader _ _ _ hkeep]
    exact Values_Add _ _ _

/-- A request that carries `abc`, a fresh response writer and a handler that only
writes a body: the response carries `abc`. -/
theorem RequestLogger_correlation_witness :
    getCorrelationID exampleEnv exampleRequest = "abc"
    ∧ Header.Values
        (RequestLogger exampleEnv plainHandler freshWriter
          exampleRequest).handedWriter.ResponseWriter.header
        correlationIDHeader = Header.Values freshWriter.header correlationIDHeader ++ ["abc"]
    ∧ Header.Get
        (RequestLogger exampleEnv plainHandler freshWriter
          exampleRequest).handedWriter.ResponseWriter.header
        correlationIDHeader = "abc"
    ∧ Header.Values (RequestLogger exampleEnv plainHandler freshWriter exampleRequest).w.header
        correlationIDHeader = Header.Values freshWriter.header correlationIDHeader ++ ["abc"] :=
  have h := RequestLogger_correlation exampleEnv plainHandler freshWriter exampleRequest
    "abc" [] (by decide) (by decide)
  ⟨h.1, h.2.1, h.2.2.1 (by decide), h.2.2.2 (by intro f hf; simp [plainHandler] at hf)⟩

/-- C9, as stated, fails: the wrapped handler shares the request with the interceptor,
and the deferred function builds the fields of "Request returned" from the request as
the handler left it. A handler that deletes the headers of a request with one header
leaves the event "Request returned" without the key `header` that "Request received"
has; a handler that sets a header on a request without headers gives "Request
returned" a key `header` that "Request received" lacks. -/
theorem RequestLogger_field_keys_differ :
    (RequestLogger exampleEnv headerClearingHandler freshWriter exampleRequest).log.map
        (fun e => (e.message, (GoMap.get? e.fields httpRequestField).map GoMap.keys))
      = [("Request received", some ["request_url", "request_method", "request_path",
            "remote_ip", "protocol", "scheme", "header"]),
         ("Request returned", some ["request_url", "request_method", "request_path",
            "remote_ip", "protocol", "scheme", "elapsed_time_ms", "status_code"])]
    ∧ 0 < exampleRequest.Header.length
    ∧ (RequestLogger exampleEnv headerSettingHandler freshWriter bareRequest).log.map
        (fun e => (e.message, (GoMap.get? e.fields httpRequestField).map GoMap.keys))
      = [("Request received", some ["request_url", "request_method", "request_path",
            "remote_ip", "protocol", "scheme"]),
         ("Request returned", some ["request_url", "request_method", "request_path",
            "remote_ip", "protocol", "scheme", "header", "elapsed_time_ms",
            "status_code"])]
    ∧ bareRequest.Header.length = 0 := by
  refine ⟨by decide, by decide, by decide, by decide⟩

/-- C9, amended: the `http_request` mapping of the event "Request received" has exactly
the six request keys, and the key `header` exactly when the incoming request carries
at least one header, so neither `elapsed_time_ms` nor `status_code`; the mapping of
every event "Request returned" has exactly the six request keys, the key `header`
exactly when the request carries at least one header once the wrapped handler has
run, and both `elapsed_time_ms` and `status_code`; the request then carries the
headers of the incoming one when the wrapped handler does not modify the request. -/
theorem RequestLogger_field_keys (env : Env) (next : Handler) (w : ResponseWriter)
    (r : Request) :
    (∃ e₀ rest m, (RequestLogger env next w r).log = e₀ :: rest
      ∧ e₀.message = "Request received"
      ∧ e₀.fields = buildRequestLogFields env.toLower r
      ∧ GoMap.get? e₀.fields httpRequestField = some m
      ∧ (GoMap.keys m).Nodup
      ∧ (∀ k, k ∈ GoMap.keys m ↔ (k ∈ baseKeys ∨ (k = headerField ∧ 0 < r.Header.length)))
      ∧ elapsedTimeField ∉ GoMap.keys m ∧ statusCodeField ∉ GoMap.keys m)
    ∧ (∀ e ∈ (RequestLogger env next w r).log, e.message = "Request returned" →
        ∃ m, GoMap.get? e.fields httpRequestField = some m
          ∧ (GoMap.keys m).Nodup
          ∧ ∀ k, k ∈ GoMap.keys m ↔ (k ∈ baseKeys
              ∨ (k = headerField ∧ 0 < (RequestLogger env next w r).final.Header.length)
              ∨ k = elapsedTimeField ∨ k = statusCodeField))
    ∧ ((∀ f, Call.request f ∉
          (next (RequestLogger env next w r).handedWriter.ResponseWriter.header
            (RequestLogger env next w r).handed).calls) →
        (RequestLogger env next w r).final.Header = r.Header) := by
  obtain ⟨m0, hm0, hnd0, hk0⟩ := buildRequestLogFields_spec env.toLower r
  have hget0 : GoMap.get? (buildRequestLogFields env.toLower r) httpRequestField = some m0 := by
    rw [hm0]
    simp [GoMap.get?]
  have hel : elapsedTimeField ∉ GoMap.keys m0 := by
    rw [hk0]
    simp [baseKeys, elapsedTimeField, requestURLField, requestMethodField, requestPathField,
      remoteIPField, protocolField, schemaField, headerField]
  have hst : statusCodeField ∉ GoMap.keys m0 := by
    rw [hk0]
    simp [baseKeys, statusCodeField, requestURLField, requestMethodField, requestPathField,
      remoteIPField, protocolField, schemaField, headerField]
  refine ⟨?_, ?_, ?_⟩
  · cases hout : (next (RequestLogger env next w r).handedWriter.ResponseWriter.header
        (RequestLogger env next w r).handed).outcome with
    | returns =>
      obtain ⟨e₀, lf, hlog, hmsg, hf, _, _⟩ := RequestLogger_of_returns env next w r hout
      exact ⟨e₀, _, m0, hlog, hmsg, hf, hf ▸ hget0, hnd0, hk0, hel, hst⟩
    | panics p =>
      obtain ⟨e₀, hlog, hmsg, hf⟩ := RequestLogger_of_panics env next w r p hout
      exact ⟨e₀, _, m0, hlog, hmsg, hf, hf ▸ hget0, hnd0, hk0, hel, hst⟩
  · intro e he hmsg
    cases hout : (next (RequestLogger env next w r).handedWriter.ResponseWriter.header
        (RequestLogger env next w r).handed).outcome with
    | returns =>
      obtain ⟨e₀, lf, hlog, hmsg0, _, hlf, _⟩ := RequestLogger_of_returns env next w r hout
      obtain ⟨m, hm, _, hnd, hk⟩ := returnedLogFields_spec env
        (RequestLogger env next w r).final StatusOK
      rw [hm] at hlf
      cases hlf
      rw [hlog] at he
      rcases List.mem_cons.1 he with h1 | h1
      · subst h1
        rw [hmsg0] at hmsg
        exact absurd hmsg (by decide)
      · rw [List.mem_singleton] at h1
        subst h1
        exact ⟨m, by simp [GoMap.get?], hnd, hk⟩
    | panics p =>
      obtain ⟨e₀, hlog, hmsg0, _⟩ := RequestLogger_of_panics env next w r p hout
      rw [hlog, List.mem_singleton] at he
      subst he
      rw [hmsg0] at hmsg
      exact absurd hmsg (by decide)
  · intro hnone
    simp only [RequestLogger, ServeHTTP] at hnone ⊢
    rw [request_runCalls _ _ _ hnone]

/-- The keys of both events for a request with one header and for a request without
headers, at a handler that writes a body and returns. -/
theorem RequestLogger_field_keys_witness :
    (RequestLogger exampleEnv plainHandler freshWriter exampleRequest).log.map
        (fun e => (e.message, (GoMap.get? e.fields httpRequestField).map GoMap.keys))
      = [("Request received", some ["request_url", "request_method", "request_path",
            "remote_ip", "protocol", "scheme", "header"]),
         ("Request returned", some ["request_url", "request_method", "request_path",
            "remote_ip", "protocol", "scheme", "header", "elapsed_time_ms", "status_code"])]
    ∧ (RequestLogger exampleEnv plainHandler freshWriter bareRequest).log.map
        (fun e => (e.message, (GoMap.get? e.fields httpRequestField).map GoMap.keys))
      = [("Request received", some ["request_url", "request_method", "request_path",
            "remote_ip", "protocol", "scheme"]),
         ("Request returned", some ["request_url", "request_method", "request_path",
            "remote_ip", "protocol", "scheme", "elapsed_time_ms", "status_code"])]
    ∧ (RequestLogger exampleEnv plainHandler freshWriter exampleRequest).final.Header
        = exampleRequest.Header :=
  ⟨by decide, by decide,
    (RequestLogger_field_keys exampleEnv plainHandler freshWriter exampleRequest).2.2
      (by intro f hf; simp [plainHandler] at hf)⟩

end LogMiddleware
